import Mathlib

/-
  Verification of the truck-simulation routing core.

  Shallow embedding of src/src/routing.py and src/src/routing_osrm_api.py.
  Coordinates and the resampling arithmetic are modelled exactly over the
  rationals, and the transcendental haversine formula over the reals;
  Python float arithmetic is idealised as exact arithmetic.  Python int()
  truncation toward zero is modelled explicitly.  Network exchanges are
  modelled by passing the (optional) decoded HTTP response as an argument:
  none stands for a request exception (unreachable service or timeout).
-/

/-- A geographic coordinate, (latitude, longitude) in degrees. -/
abbrev Coordinate : Type := ℚ × ℚ

/-- Python int() applied to an exact rational: truncation toward zero. -/
def int_of_rat (q : ℚ) : ℤ :=
  if 0 ≤ q then ⌊q⌋ else ⌈q⌉

open Classical in
/-- Python int() applied to an exact real: truncation toward zero. -/
noncomputable def int_of_real (x : ℝ) : ℤ :=
  if 0 ≤ x then ⌊x⌋ else ⌈x⌉

/-- Python math.radians: degrees to radians. -/
noncomputable def radians (deg : ℚ) : ℝ :=
  (deg : ℝ) * Real.pi / 180

/-- TruckRouting.haversine_distance (routing.py lines 138-144 and
routing_osrm_api.py lines 84-90, identical): distance between two points
in km, haversine formula with Earth radius 6371 km. -/
noncomputable def haversine_distance (lat1 lon1 lat2 lon2 : ℚ) : ℝ :=
  let R : ℝ := 6371
  let rlat1 := radians lat1
  let rlon1 := radians lon1
  let rlat2 := radians lat2
  let rlon2 := radians lon2
  let dlat := rlat2 - rlat1
  let dlon := rlon2 - rlon1
  let a := Real.sin (dlat / 2) ^ 2 +
    Real.cos rlat1 * Real.cos rlat2 * Real.sin (dlon / 2) ^ 2
  2 * R * Real.arcsin (Real.sqrt a)

/-- TruckRouting.interpolate_route (routing.py lines 146-156 and
routing_osrm_api.py lines 92-102, identical): per-minute linear
interpolation between two endpoints.  The Python loop
`for minute in range(total_minutes + 1)` is empty when
total_minutes + 1 <= 0, hence the toNat. -/
def interpolate_route (start_lat start_lon end_lat end_lon : ℚ)
    (total_minutes : ℤ) : List Coordinate :=
  (List.range (total_minutes + 1).toNat).map fun (minute : ℕ) =>
    let ratio : ℚ :=
      if 0 < total_minutes then (minute : ℚ) / (total_minutes : ℚ) else 0
    (start_lat + (end_lat - start_lat) * ratio,
     start_lon + (end_lon - start_lon) * ratio)

/-- TruckRouting.sample_route_to_minutes (routing.py lines 158-172 and
routing_osrm_api.py lines 104-118, identical): sample a route polyline to
per-minute resolution by nearest-lower-index selection.  Python
`point_idx = int(ratio * (len(route_points) - 1))` is int() truncation of
the exact product; `min(point_idx, len(route_points) - 1)` is the integer
min; the final list indexing is in bounds (the index is nonnegative and
at most len - 1), modelled by getD. -/
def sample_route_to_minutes (route_points : List Coordinate)
    (total_duration_minutes : ℤ) : List Coordinate :=
  if route_points.length ≤ 1 then route_points
  else
    (List.range (total_duration_minutes + 1).toNat).map fun (minute : ℕ) =>
      let ratio : ℚ :=
        if 0 < total_duration_minutes then
          (minute : ℚ) / (total_duration_minutes : ℚ)
        else 0
      let point_idx : ℤ := int_of_rat ( ratio * ((route_points.length : ℚ) - 1))
      let point_idx : ℤ := min point_idx ((route_points.length : ℤ) - 1)
      route_points.getD point_idx.toNat ((0 : ℚ), (0 : ℚ))

/-- One entry of the metro region registry (metros.json). -/
structure Metro where
  name : String
  lat : ℚ
  lon : ℚ
deriving DecidableEq

/-- The registry scan shared by both generate_trajectory implementations
(routing.py lines 225-229 and routing_osrm_api.py lines 171-175): a single
pass over the metro list with an exclusive if/elif assigning the start and
end coordinates. -/
def find_metro_coords (metros : List Metro) (start_metro end_metro : String) :
    Option Coordinate × Option Coordinate :=
  metros.foldl
    (fun acc metro =>
      if metro.name = start_metro then (some (metro.lat, metro.lon), acc.2)
      else if metro.name = end_metro then (acc.1, some (metro.lat, metro.lon))
      else acc)
    (none, none)

/-- One route of a decoded OSRM response: geometry coordinates as
(lon, lat) pairs, plus distance in meters and duration in seconds. -/
structure OsrmRoute where
  coordinates : List (ℚ × ℚ)
  distance : ℝ
  duration : ℝ

/-- A decoded OSRM HTTP response body. -/
structure OsrmResp where
  code : String
  routes : List OsrmRoute

/-- The route data dictionary returned by the route fetchers. -/
structure RouteData where
  route_points : List Coordinate
  distance_meters : ℝ
  duration_seconds : ℝ
  distance_km : ℝ
  duration_hours : ℝ

/-- The trajectory dictionary returned by generate_trajectory.  The
osrm_used flag of the routing_osrm_api.py variant, a constant True, is not
modelled. -/
structure Trajectory where
  start_metro : String
  end_metro : String
  distance_km : ℝ
  duration_minutes : ℤ
  avg_speed_kmh : ℝ
  route_points : List Coordinate

namespace RoutingOsrmApi

/-- TruckRouting._fallback_linear_route (routing_osrm_api.py lines 67-82):
haversine distance between the endpoints, duration derived from an assumed
80 km/h average speed, polyline from the linear interpolator. -/
noncomputable def fallback_linear_route (start_lat start_lon end_lat end_lon : ℚ) :
    RouteData :=
  let distance_km := haversine_distance start_lat start_lon end_lat end_lon
  let duration_hours := distance_km / 80
  let duration_minutes := int_of_real (duration_hours * 60)
  { route_points :=
      interpolate_route start_lat start_lon end_lat end_lon duration_minutes,
    distance_meters := distance_km * 1000,
    duration_seconds := duration_hours * 3600,
    distance_km := distance_km,
    duration_hours := duration_hours }

/-- TruckRouting.get_osrm_route (routing_osrm_api.py lines 24-65): on a
request exception (resp = none), on a response code other than Ok, or on an
empty route list, fall back to linear interpolation; otherwise decode the
first route, swapping (lon, lat) into (lat, lon). -/
noncomputable def get_osrm_route (resp : Option OsrmResp)
    (start_lat start_lon end_lat end_lon : ℚ) : RouteData :=
  match resp with
  | none => fallback_linear_route start_lat start_lon end_lat end_lon
  | some data =>
    match data.routes with
    | [] => fallback_linear_route start_lat start_lon end_lat end_lon
    | route :: _ =>
      if data.code = "Ok" then
        { route_points := route.coordinates.map fun coord => (coord.2, coord.1),
          distance_meters := route.distance,
          duration_seconds := route.duration,
          distance_km := route.distance / 1000,
          duration_hours := route.duration / 3600 }
      else fallback_linear_route start_lat start_lon end_lat end_lon

/-- TruckRouting.generate_trajectory (routing_osrm_api.py lines 161-197).
The avg_speed_kmh argument stands for the caller-supplied value (the
random.uniform default is not modelled); resp is the decoded OSRM response,
none standing for a request exception. -/
noncomputable def generate_trajectory (metros : List Metro)
    (start_metro end_metro : String) (avg_speed_kmh : ℝ)
    (resp : Option OsrmResp) : Except String Trajectory :=
  match find_metro_coords metros start_metro end_metro with
  | (some start_coords, some end_coords) =>
    let route_data := get_osrm_route resp start_coords.1 start_coords.2
      end_coords.1 end_coords.2
    let total_minutes := int_of_real (route_data.duration_hours * 60)
    let sampled_route :=
      sample_route_to_minutes route_data.route_points total_minutes
    .ok
      { start_metro := start_metro,
        end_metro := end_metro,
        distance_km := route_data.distance_km,
        duration_minutes := total_minutes,
        avg_speed_kmh := avg_speed_kmh,
        route_points := sampled_route }
  | _ =>
    .error ("Metro region not found: " ++ start_metro ++ " or " ++ end_metro)

end RoutingOsrmApi

namespace Routing

/-- TruckRouting.get_osrm_route (routing.py lines 96-135): same decoding,
but every failure (request exception, response code other than Ok, empty
route list) is re-raised as a RuntimeError instead of falling back. -/
noncomputable def get_osrm_route (resp : Option OsrmResp) : Except String RouteData :=
  match resp with
  | none => .error "OSRM API failed"
  | some data =>
    match data.routes with
    | [] => .error "OSRM routing failed"
    | route :: _ =>
      if data.code = "Ok" then
        .ok
          { route_points := route.coordinates.map fun coord => (coord.2, coord.1),
            distance_meters := route.distance,
            duration_seconds := route.duration,
            distance_km := route.distance / 1000,
            duration_hours := route.duration / 3600 }
      else .error "OSRM routing failed"

/-- TruckRouting.generate_trajectory (routing.py lines 215-253) with the
default router_type "osrm": the RuntimeError raised by get_osrm_route on
router failure propagates to the caller. -/
noncomputable def generate_trajectory (metros : List Metro)
    (start_metro end_metro : String) (avg_speed_kmh : ℝ)
    (resp : Option OsrmResp) : Except String Trajectory :=
  match find_metro_coords metros start_metro end_metro with
  | (some _start_coords, some _end_coords) =>
    match get_osrm_route resp with
    | .error msg => .error msg
    | .ok route_data =>
      let total_minutes := int_of_real (route_data.duration_hours * 60)
      let sampled_route :=
        sample_route_to_minutes route_data.route_points total_minutes
      .ok
        { start_metro := start_metro,
          end_metro := end_metro,
          distance_km := route_data.distance_km,
          duration_minutes := total_minutes,
          avg_speed_kmh := avg_speed_kmh,
          route_points := sampled_route }
  | _ =>
    .error ("Metro region not found: " ++ start_metro ++ " or " ++ end_metro)

end Routing

/-- TruckRouting.calculate_per_minute_speeds (routing.py lines 305-325):
for each adjacent pair of route points, the haversine distance (the formula
is inlined in the source, Earth radius 6371 km) times 60 gives the speed in
km/h, each step being one minute. -/
noncomputable def calculate_per_minute_speeds (route_points : List Coordinate) :
    List ℝ :=
  (List.range (route_points.length - 1)).map fun i =>
    let p1 := route_points.getD i ((0 : ℚ), (0 : ℚ))
    let p2 := route_points.getD (i + 1) ((0 : ℚ), (0 : ℚ))
    let R : ℝ := 6371
    let rlat1 := radians p1.1
    let rlon1 := radians p1.2
    let rlat2 := radians p2.1
    let rlon2 := radians p2.2
    let dlat := rlat2 - rlat1
    let dlon := rlon2 - rlon1
    let a := Real.sin (dlat / 2) ^ 2 +
      Real.cos rlat1 * Real.cos rlat2 * Real.sin (dlon / 2) ^ 2
    let distance_km := 2 * R * Real.arcsin (Real.sqrt a)
    distance_km * 60

/-- One step of TruckRouting.calculate_rolling_mean_speeds: the mean of the
window slice speeds[max(0, i - window//2) : min(len(speeds), i + window//2 + 1)].
Python raises ZeroDivisionError when the slice is empty (possible only for a
negative window), modelled as none.  Integer division on ℤ by the positive
literal 2 agrees with the Python floor division window // 2. -/
noncomputable def rolling_mean_at (speeds : List ℝ) (window : ℤ) (i : ℕ) : Option ℝ :=
  let start_idx : ℤ := max 0 ((i : ℤ) - window / 2)
  let end_idx : ℤ := min (speeds.length : ℤ) ((i : ℤ) + window / 2 + 1)
  let window_speeds := (speeds.drop start_idx.toNat).take (end_idx.toNat - start_idx.toNat)
  if window_speeds.length = 0 then none
  else some (window_speeds.sum / (window_speeds.length : ℝ))

/-- TruckRouting.calculate_rolling_mean_speeds (routing.py lines 327-339):
return the input unchanged when shorter than the window, otherwise the list
of window means; none models the ZeroDivisionError Python raises on an
empty window slice. -/
noncomputable def calculate_rolling_mean_speeds (speeds : List ℝ) (window : ℤ) :
    Option (List ℝ) :=
  if (speeds.length : ℤ) < window then some speeds
  else (List.range speeds.length).mapM fun i => rolling_mean_at speeds window i

/-- The state-name-to-code table of reverse_geocode_state (routing.py lines
200-204 and routing_osrm_api.py lines 146-150, identical). -/
def state_mapping : List (String × String) :=
  [("california", "CA"), ("texas", "TX"), ("florida", "FL"),
   ("new york", "NY"), ("pennsylvania", "PA"), ("illinois", "IL"),
   ("georgia", "GA"), ("massachusetts", "MA"), ("washington", "DC")]

/-- Python str.lower, modelled as a per-character map (equivalent to the
library toLower, which is defined by position recursion and is chosen
against here so that concrete instances reduce). -/
def py_lower (s : String) : String :=
  ⟨s.data.map Char.toLower⟩

/-- Python str.upper, modelled as a per-character map. -/
def py_upper (s : String) : String :=
  ⟨s.data.map Char.toUpper⟩

/-- The address object of a decoded Nominatim reverse-geocoding response;
a missing field is none, as with Python dict.get. -/
structure Address where
  state : Option String
  country_code : Option String

/-- TruckRouting.reverse_geocode_state (routing.py lines 174-213 and
routing_osrm_api.py lines 120-159, identical).  resp = none models any
exception (network error, timeout, malformed body).  Python string
truthiness is emptiness; `state or country_code.upper()` takes the state
when nonempty, else the upper-cased country code (empty when missing). -/
def reverse_geocode_state (resp : Option Address) : String :=
  match resp with
  | none => "UNKNOWN"
  | some address =>
    let state_field := address.state.getD ""
    let state :=
      if state_field ≠ "" then state_field
      else py_upper (address.country_code.getD "")
    match state_mapping.lookup (py_lower state) with
    | some code => code
    | none => if state ≠ "" then state else "UNKNOWN"

/-- Reference resampler written from the words of the specification
(section 4.1): output length total_minutes + 1 (clamped at zero length for
a negative total); an input with at most one point is returned unchanged;
for total_minutes <= 0 every output point equals the first input point;
otherwise minute m maps to index floor((m / total_minutes) * (len - 1)),
clamped to the last valid index. -/
def resample_spec (polyline : List Coordinate) (total_minutes : ℤ) :
    List Coordinate :=
  if polyline.length ≤ 1 then polyline
  else if total_minutes ≤ 0 then
    List.replicate (total_minutes + 1).toNat (polyline.getD 0 ((0 : ℚ), (0 : ℚ)))
  else
    (List.range (total_minutes + 1).toNat).map fun (m : ℕ) =>
      let idx : ℤ := ⌊((m : ℚ) / (total_minutes : ℚ)) * ((polyline.length : ℚ) - 1)⌋
      polyline.getD (min idx ((polyline.length : ℤ) - 1)).toNat ((0 : ℚ), (0 : ℚ))

/-- Truncation toward zero agrees with the floor on nonnegative inputs. -/
lemma int_of_rat_of_nonneg {q : ℚ} (h : 0 ≤ q) : int_of_rat q = ⌊q⌋ := by
  simp [int_of_rat, h]

/-- Truncation toward zero agrees with the floor on nonnegative inputs. -/
lemma int_of_real_of_nonneg {x : ℝ} (h : 0 ≤ x) : int_of_real x = ⌊x⌋ := by
  simp [int_of_real, h]

/-- The exact value of the truncated sampling index: for a positive total,
int((minute / total) * k) is natural-number division. -/
lemma int_of_rat_ratio_mul (m k : ℕ) (t : ℤ) (ht : 0 < t) :
    int_of_rat ((m : ℚ) / (t : ℚ) * (k : ℚ)) = ((m * k / t.toNat : ℕ) : ℤ) := by
  have htq : (0 : ℚ) < (t : ℚ) := by exact_mod_cast ht
  have hnn : (0 : ℚ) ≤ (m : ℚ) / (t : ℚ) * (k : ℚ) :=
    mul_nonneg (div_nonneg (by positivity) htq.le) (by positivity)
  rw [int_of_rat_of_nonneg hnn]
  have harg : (m : ℚ) / (t : ℚ) * (k : ℚ) = ((m * k : ℤ) : ℚ) / ((t.toNat : ℕ) : ℚ) := by
    have hc : ((t.toNat : ℕ) : ℚ) = (t : ℚ) := by
      exact_mod_cast congrArg (Int.cast : ℤ → ℚ) (Int.toNat_of_nonneg ht.le)
    rw [hc]
    push_cast
    ring
  rw [harg, Rat.floor_intCast_div_natCast (m * k : ℤ) t.toNat]
  push_cast
  ring_nf

/-- A list equals the map of its indexed reads over its index range. -/
lemma map_getD_range_eq (l : List Coordinate) (d : Coordinate) :
    (List.range l.length).map (fun i => l.getD i d) = l := by
  apply List.ext_getElem
  · simp
  · intro n h1 h2
    simp only [List.getElem_map, List.getElem_range]
    exact List.getD_eq_getElem l d h2

/-- Characterization of the sampler for a positive total: the output is the
map of the clamped natural-division index over the minutes. -/
lemma sample_route_to_minutes_pos_eq (P : List Coordinate) (t : ℤ)
    (ht : 0 < t) (hn : 1 < P.length) :
    sample_route_to_minutes P t =
      (List.range (t.toNat + 1)).map
        (fun m => P.getD (m * (P.length - 1) / t.toNat) ((0 : ℚ), (0 : ℚ))) := by
  rw [sample_route_to_minutes, if_neg (by omega)]
  have htn : (t + 1).toNat = t.toNat + 1 := by omega
  rw [htn]
  apply List.map_congr_left
  intro m hm
  have hm' : m ≤ t.toNat := by
    have := List.mem_range.mp hm
    omega
  simp only [if_pos ht]
  have hcast : ((P.length : ℚ) - 1) = ((P.length - 1 : ℕ) : ℚ) := by
    have : 1 ≤ P.length := by omega
    push_cast [this]
    ring
  rw [hcast, int_of_rat_ratio_mul m (P.length - 1) t ht]
  have hle : m * (P.length - 1) / t.toNat ≤ P.length - 1 := by
    have h1 : m * (P.length - 1) ≤ t.toNat * (P.length - 1) :=
      Nat.mul_le_mul_right _ hm'
    have h2 : t.toNat * (P.length - 1) / t.toNat = P.length - 1 :=
      Nat.mul_div_cancel_left _ (by omega)
    calc m * (P.length - 1) / t.toNat ≤ t.toNat * (P.length - 1) / t.toNat :=
          Nat.div_le_div_right h1
      _ = P.length - 1 := h2
  have hmin : min (((m * (P.length - 1) / t.toNat : ℕ) : ℤ)) ((P.length : ℤ) - 1) =
      ((m * (P.length - 1) / t.toNat : ℕ) : ℤ) := by
    apply min_eq_left
    omega
  rw [hmin, Int.toNat_natCast]

/-- Resampling a list whose length is exactly total + 1 returns it
unchanged. -/
lemma sample_route_to_minutes_self (Q : List Coordinate) (t : ℤ)
    (ht : 0 ≤ t) (hl : Q.length = t.toNat + 1) :
    sample_route_to_minutes Q t = Q := by
  rcases eq_or_lt_of_le ht with h0 | hpos
  · rw [sample_route_to_minutes, if_pos (by omega)]
  · rw [sample_route_to_minutes_pos_eq Q t hpos (by omega)]
    have hQ1 : Q.length - 1 = t.toNat := by omega
    rw [hQ1]
    have : ∀ m ∈ List.range (t.toNat + 1),
        Q.getD (m * t.toNat / t.toNat) ((0 : ℚ), (0 : ℚ)) =
          Q.getD m ((0 : ℚ), (0 : ℚ)) := by
      intro m _
      rw [Nat.mul_div_cancel _ (by omega)]
    rw [List.map_congr_left this, ← hl, map_getD_range_eq]

/-- The head of a nonempty list is its read at index 0. -/
lemma head?_eq_getD_zero (l : List Coordinate) (d : Coordinate)
    (h : l ≠ []) : l.head? = some (l.getD 0 d) := by
  cases l with
  | nil => exact absurd rfl h
  | cons a l => simp

/-- The last element of a nonempty list is its read at the last index. -/
lemma getLast?_eq_getD_pred (l : List Coordinate) (d : Coordinate)
    (h : l ≠ []) : l.getLast? = some (l.getD (l.length - 1) d) := by
  have hlen : 0 < l.length := List.length_pos.mpr h
  rw [List.getLast?_eq_getElem?,
    List.getElem?_eq_getElem (by omega),
    List.getD_eq_getElem l d (by omega)]

/-- Length of the interpolated route. -/
lemma interpolate_route_length (a b c d : ℚ) (t : ℤ) :
    (interpolate_route a b c d t).length = (t + 1).toNat := by
  simp [interpolate_route]

/-- The first interpolated point is the start, for a nonnegative total. -/
lemma interpolate_route_head (a b c d : ℚ) (t : ℤ) (ht : 0 ≤ t) :
    (interpolate_route a b c d t).head? = some (a, b) := by
  rw [interpolate_route, List.head?_map, List.head?_range, if_neg (by omega)]
  rcases em (0 < t) with h | h <;> simp [h]

/-- The last interpolated point is the end, for a positive total. -/
lemma interpolate_route_last (a b c d : ℚ) (t : ℤ) (ht : 1 ≤ t) :
    (interpolate_route a b c d t).getLast? = some (c, d) := by
  rw [List.getLast?_eq_getElem?]
  have hlen : (interpolate_route a b c d t).length = t.toNat + 1 := by
    rw [interpolate_route_length]
    omega
  rw [hlen]
  simp only [Nat.add_sub_cancel]
  rw [interpolate_route, List.getElem?_map, List.getElem?_range (by omega)]
  have hc : ((t.toNat : ℕ) : ℚ) = (t : ℚ) := by
    exact_mod_cast congrArg (Int.cast : ℤ → ℚ) (Int.toNat_of_nonneg (by omega))
  have htne : (t : ℚ) ≠ 0 := by
    exact_mod_cast (by omega : t ≠ 0)
  have h1 : a + (c - a) * 1 = c := by ring
  have h2 : b + (d - b) * 1 = d := by ring
  simp only [Option.map_some, Option.map_some', if_pos (show 0 < t by omega)]
  rw [hc, div_self htne]
  simp only [h1, h2]

/-- The haversine distance is nonnegative. -/
lemma haversine_distance_nonneg (lat1 lon1 lat2 lon2 : ℚ) :
    0 ≤ haversine_distance lat1 lon1 lat2 lon2 := by
  unfold haversine_distance
  have := Real.arcsin_nonneg.mpr (Real.sqrt_nonneg
    (Real.sin ((radians lat2 - radians lat1) / 2) ^ 2 +
      Real.cos (radians lat1) * Real.cos (radians lat2) *
        Real.sin ((radians lon2 - radians lon1) / 2) ^ 2))
  positivity

/-- Length of the sampled route for a multi-point input. -/
lemma sample_route_to_minutes_length (P : List Coordinate) (t : ℤ)
    (hP : ¬ P.length ≤ 1) :
    (sample_route_to_minutes P t).length = (t + 1).toNat := by
  rw [sample_route_to_minutes, if_neg hP]
  simp

/-- C1: for every polyline with more than one point and every total of at
least one minute, the sampled route has total + 1 points, its first element
is the first input point and its last element is the last input point. -/
theorem sample_route_keeps_endpoints (P : List Coordinate) (t : ℤ)
    (hP : 1 < P.length) (ht : 1 ≤ t) :
    (sample_route_to_minutes P t).length = t.toNat + 1 ∧
    (sample_route_to_minutes P t).head? = P.head? ∧
    (sample_route_to_minutes P t).getLast? = P.getLast? := by
  have hpos : 0 < t := by omega
  have hPne : P ≠ [] := by
    intro h
    rw [h] at hP
    simp at hP
  rw [sample_route_to_minutes_pos_eq P t hpos hP]
  refine ⟨by simp, ?_, ?_⟩
  · rw [List.head?_map, List.head?_range, if_neg (by omega),
      head?_eq_getD_zero P ((0 : ℚ), (0 : ℚ)) hPne]
    simp
  · rw [List.getLast?_eq_getElem?]
    have hlen :
        ((List.range (t.toNat + 1)).map
          (fun m => P.getD (m * (P.length - 1) / t.toNat) ((0 : ℚ), (0 : ℚ)))).length =
          t.toNat + 1 := by
      simp
    rw [hlen]
    simp only [Nat.add_sub_cancel]
    rw [List.getElem?_map, List.getElem?_range (by omega),
      getLast?_eq_getD_pred P ((0 : ℚ), (0 : ℚ)) hPne]
    simp only [Option.map_some, Option.map_some']
    rw [Nat.mul_div_cancel_left _ (by omega : 0 < t.toNat)]

/-- C1 witness: the sampler on a concrete three-point polyline and two
minutes. -/
theorem sample_route_keeps_endpoints_witness :
    (sample_route_to_minutes [(0, 0), (1, 1), (2, 2)] 2).length = 3 ∧
    (sample_route_to_minutes [(0, 0), (1, 1), (2, 2)] 2).head? =
      ([(0, 0), (1, 1), (2, 2)] : List Coordinate).head? ∧
    (sample_route_to_minutes [(0, 0), (1, 1), (2, 2)] 2).getLast? =
      ([(0, 0), (1, 1), (2, 2)] : List Coordinate).getLast? :=
  sample_route_keeps_endpoints [(0, 0), (1, 1), (2, 2)] 2 (by decide) (by decide)

/-- C2: the implemented sampler coincides with the reference resampler
written from the words of the specification, on all inputs. -/
theorem sample_route_matches_resample_spec (P : List Coordinate) (t : ℤ) :
    sample_route_to_minutes P t = resample_spec P t := by
  by_cases hP : P.length ≤ 1
  · rw [sample_route_to_minutes, resample_spec, if_pos hP, if_pos hP]
  · push_neg at hP
    by_cases ht : t ≤ 0
    · rw [resample_spec, if_neg (by omega), if_pos ht]
      rcases lt_or_eq_of_le ht with hlt | heq
      · rw [sample_route_to_minutes, if_neg (by omega)]
        have h0 : (t + 1).toNat = 0 := by omega
        rw [h0]
        simp
      · subst heq
        rw [sample_route_to_minutes, if_neg (by omega)]
        have h1 : ((0 : ℤ) + 1).toNat = 1 := rfl
        have hr : List.range 1 = [0] := rfl
        rw [h1, hr]
        simp only [List.map_cons, List.map_nil, List.replicate_one]
        have hz : int_of_rat ((if (0 : ℤ) < 0 then (((0 : ℕ) : ℚ)) / ((0 : ℤ) : ℚ) else 0) *
            ((P.length : ℚ) - 1)) = 0 := by
          norm_num [int_of_rat]
        rw [hz, min_eq_left (by omega)]
        rfl
    · push_neg at ht
      rw [resample_spec, if_neg (by omega), if_neg (by omega),
        sample_route_to_minutes, if_neg (by omega)]
      apply List.map_congr_left
      intro m _
      simp only [if_pos ht]
      have h1q : (1 : ℚ) ≤ (P.length : ℚ) := by exact_mod_cast hP.le
      have htq : (0 : ℚ) < (t : ℚ) := by exact_mod_cast ht
      have hnn : (0 : ℚ) ≤ (m : ℚ) / (t : ℚ) * ((P.length : ℚ) - 1) :=
        mul_nonneg (div_nonneg (by positivity) htq.le) (by linarith)
      rw [int_of_rat_of_nonneg hnn]

/-- C3: resampling is idempotent: resampling an already-resampled route to
the same total reproduces it, for every polyline and every integer total. -/
theorem sample_route_to_minutes_idempotent (P : List Coordinate) (t : ℤ) :
    sample_route_to_minutes (sample_route_to_minutes P t) t =
      sample_route_to_minutes P t := by
  by_cases hP : P.length ≤ 1
  · have h1 : sample_route_to_minutes P t = P := by
      rw [sample_route_to_minutes, if_pos hP]
    rw [h1, h1]
  · rcases lt_trichotomy t 0 with hlt | heq | hpos
    · have h1 : sample_route_to_minutes P t = [] := by
        rw [sample_route_to_minutes, if_neg hP]
        have h0 : (t + 1).toNat = 0 := by omega
        rw [h0]
        simp
      rw [h1]
      rw [sample_route_to_minutes, if_pos (by simp)]
    · have hlen1 : (sample_route_to_minutes P t).length = 1 := by
        rw [sample_route_to_minutes_length P t hP, heq]
        rfl
      conv_lhs => rw [sample_route_to_minutes]
      rw [if_pos (by omega)]
    · have hlen : (sample_route_to_minutes P t).length = t.toNat + 1 := by
        rw [sample_route_to_minutes_length P t hP]
        omega
      exact sample_route_to_minutes_self _ t hpos.le hlen

/-- The registry scan never assigns the end coordinates when both requested
names are equal: the elif branch is shadowed by the if branch. -/
lemma find_metro_coords_same_foldl (l : List Metro) (m : String) :
    ∀ acc : Option Coordinate × Option Coordinate,
      (l.foldl
        (fun acc metro =>
          if metro.name = m then (some (metro.lat, metro.lon), acc.2)
          else if metro.name = m then (acc.1, some (metro.lat, metro.lon))
          else acc) acc).2 = acc.2 := by
  induction l with
  | nil =>
    intro acc
    rfl
  | cons x l ih =>
    intro acc
    rw [List.foldl_cons, ih]
    by_cases h : x.name = m <;> simp [h]

/-- With equal start and end names the scan leaves the end coordinates
unassigned. -/
lemma find_metro_coords_same_snd (metros : List Metro) (m : String) :
    (find_metro_coords metros m m).2 = none := by
  rw [find_metro_coords]
  exact find_metro_coords_same_foldl metros m (none, none)

/-- C10: requesting a trajectory from a registered metro to itself fails
with the Metro-region-not-found error in both implementations, for any
router response: the exclusive elif of the registry scan never assigns the
end coordinates when both names name the same entry. -/
theorem generate_trajectory_same_metro_errors (metros : List Metro)
    (m : String) (hm : ∃ entry ∈ metros, entry.name = m) (avg : ℝ)
    (resp : Option OsrmResp) :
    RoutingOsrmApi.generate_trajectory metros m m avg resp =
      .error ("Metro region not found: " ++ m ++ " or " ++ m) ∧
    Routing.generate_trajectory metros m m avg resp =
      .error ("Metro region not found: " ++ m ++ " or " ++ m) := by
  have hsnd := find_metro_coords_same_snd metros m
  rcases hfc : find_metro_coords metros m m with ⟨f, s⟩
  rw [hfc] at hsnd
  simp only at hsnd
  subst hsnd
  constructor
  · rw [RoutingOsrmApi.generate_trajectory, hfc]
    cases f <;> rfl
  · rw [Routing.generate_trajectory, hfc]
    cases f <;> rfl

/-- C10 witness: a concrete one-entry registry with equal start and end. -/
theorem generate_trajectory_same_metro_errors_witness :
    RoutingOsrmApi.generate_trajectory [⟨"A", 40, -75⟩] "A" "A" 80 none =
      .error ("Metro region not found: " ++ "A" ++ " or " ++ "A") ∧
    Routing.generate_trajectory [⟨"A", 40, -75⟩] "A" "A" 80 none =
      .error ("Metro region not found: " ++ "A" ++ " or " ++ "A") :=
  generate_trajectory_same_metro_errors [⟨"A", 40, -75⟩] "A"
    ⟨⟨"A", 40, -75⟩, by simp⟩ 80 none

/-- C4 counterexample: with the routing.py implementation and two
registered metros, a router failure (request exception, resp = none) makes
generate_trajectory return the propagated RuntimeError, not a trajectory. -/
theorem routing_generate_trajectory_propagates_failure :
    Routing.generate_trajectory [⟨"A", 40, -75⟩, ⟨"B", 40, -74⟩] "A" "B" 80 none =
      .error "OSRM API failed" := by
  rfl

/-- C4 amended: in the routing_osrm_api.py implementation router failure is
non-fatal: whenever both metro names resolve, a request exception or a
no-route response still yields a trajectory through the fallback path; in
routing.py the error instead propagates to the caller. -/
theorem osrm_api_generate_trajectory_total (metros : List Metro)
    (s e : String) (avg : ℝ) (sc ec : Coordinate)
    (h : find_metro_coords metros s e = (some sc, some ec))
    (resp : Option OsrmResp)
    (hfail : resp = none ∨ ∃ r, resp = some r ∧ r.code ≠ "Ok") :
    ∃ traj : Trajectory,
      RoutingOsrmApi.generate_trajectory metros s e avg resp = .ok traj := by
  rw [RoutingOsrmApi.generate_trajectory, h]
  exact ⟨_, rfl⟩

/-- C4 witness: a concrete two-metro registry with an unreachable router. -/
theorem osrm_api_generate_trajectory_total_witness :
    ∃ traj : Trajectory,
      RoutingOsrmApi.generate_trajectory [⟨"A", 40, -75⟩, ⟨"B", 40, -74⟩]
        "A" "B" 80 none = .ok traj :=
  osrm_api_generate_trajectory_total [⟨"A", 40, -75⟩, ⟨"B", 40, -74⟩]
    "A" "B" 80 (40, -75) (40, -74) (by rfl) none (Or.inl rfl)

/-- The derived fallback duration in minutes is nonnegative. -/
lemma fallback_duration_minutes_nonneg (a b c d : ℚ) :
    0 ≤ int_of_real (haversine_distance a b c d / 80 * 60) := by
  have hnn : 0 ≤ haversine_distance a b c d / 80 * 60 := by
    have := haversine_distance_nonneg a b c d
    positivity
  rw [int_of_real_of_nonneg hnn]
  exact Int.floor_nonneg.mpr hnn

/-- C5: when the router fails and the fallback path is taken,
generate_trajectory of routing_osrm_api.py returns route points equal to
the linear interpolation between the two resolved endpoints, with exactly
duration_minutes + 1 points (the intervening resampler call leaves the
already-per-minute polyline unchanged). -/
theorem fallback_route_points_eq_interpolation (metros : List Metro)
    (s e : String) (avg : ℝ) (sc ec : Coordinate)
    (h : find_metro_coords metros s e = (some sc, some ec)) :
    ∃ traj : Trajectory,
      RoutingOsrmApi.generate_trajectory metros s e avg none = .ok traj ∧
      traj.route_points =
        interpolate_route sc.1 sc.2 ec.1 ec.2 traj.duration_minutes ∧
      traj.route_points.length = traj.duration_minutes.toNat + 1 := by
  have hdnn := fallback_duration_minutes_nonneg sc.1 sc.2 ec.1 ec.2
  have hlen :
      (interpolate_route sc.1 sc.2 ec.1 ec.2
        (int_of_real (haversine_distance sc.1 sc.2 ec.1 ec.2 / 80 * 60))).length =
      (int_of_real (haversine_distance sc.1 sc.2 ec.1 ec.2 / 80 * 60)).toNat + 1 := by
    rw [interpolate_route_length]
    omega
  have hs :
      sample_route_to_minutes
        (interpolate_route sc.1 sc.2 ec.1 ec.2
          (int_of_real (haversine_distance sc.1 sc.2 ec.1 ec.2 / 80 * 60)))
        (int_of_real (haversine_distance sc.1 sc.2 ec.1 ec.2 / 80 * 60)) =
      interpolate_route sc.1 sc.2 ec.1 ec.2
        (int_of_real (haversine_distance sc.1 sc.2 ec.1 ec.2 / 80 * 60)) :=
    sample_route_to_minutes_self _ _ hdnn hlen
  rw [RoutingOsrmApi.generate_trajectory, h]
  simp only [RoutingOsrmApi.get_osrm_route, RoutingOsrmApi.fallback_linear_route]
  exact ⟨_, rfl, hs, by rw [hs, hlen]⟩

/-- C5 witness: a concrete registry and an unreachable router. -/
theorem fallback_route_points_eq_interpolation_witness :
    ∃ traj : Trajectory,
      RoutingOsrmApi.generate_trajectory [⟨"A", 40, -75⟩, ⟨"B", 40, -74⟩]
        "A" "B" 80 none = .ok traj ∧
      traj.route_points =
        interpolate_route (40 : ℚ) (-75 : ℚ) (40 : ℚ) (-74 : ℚ) traj.duration_minutes ∧
      traj.route_points.length = traj.duration_minutes.toNat + 1 :=
  fallback_route_points_eq_interpolation [⟨"A", 40, -75⟩, ⟨"B", 40, -74⟩]
    "A" "B" 80 (40, -75) (40, -74) (by rfl)

/-- C7: the per-minute speed list has one value per adjacent pair of
points; the i-th value is the haversine distance (Earth radius 6371 km)
between points i and i + 1 times 60; an empty or single-point input yields
the empty list. -/
theorem per_minute_speeds_spec (route_points : List Coordinate) :
    (calculate_per_minute_speeds route_points).length = route_points.length - 1 ∧
    (∀ i, i + 1 < route_points.length →
      (calculate_per_minute_speeds route_points).getD i 0 =
        haversine_distance
          (route_points.getD i ((0 : ℚ), (0 : ℚ))).1
          (route_points.getD i ((0 : ℚ), (0 : ℚ))).2
          (route_points.getD (i + 1) ((0 : ℚ), (0 : ℚ))).1
          (route_points.getD (i + 1) ((0 : ℚ), (0 : ℚ))).2 * 60) ∧
    (route_points.length ≤ 1 → calculate_per_minute_speeds route_points = []) := by
  refine ⟨by simp [calculate_per_minute_speeds], ?_, ?_⟩
  · intro i hi
    rw [calculate_per_minute_speeds,
      List.getD_eq_getElem _ _ (by simp; omega)]
    simp only [List.getElem_map, List.getElem_range]
    rfl
  · intro h
    rw [calculate_per_minute_speeds]
    have h0 : route_points.length - 1 = 0 := by omega
    rw [h0]
    simp

/-- C7 witness: a concrete three-point polyline and its middle pair. -/
theorem per_minute_speeds_spec_witness :
    (calculate_per_minute_speeds [(0, 0), (0, 1), (0, 2)]).getD 1 0 =
      haversine_distance 0 1 0 2 * 60 :=
  (per_minute_speeds_spec [(0, 0), (0, 1), (0, 2)]).2.1 1 (by decide)

/-- Arithmetic mean of the values of a list over the index interval
[lo, hi), the quantity named by the rolling-mean claim. -/
noncomputable def index_range_mean (speeds : List ℝ) (lo hi : ℕ) : ℝ :=
  ((List.range' lo (hi - lo)).map fun j => speeds.getD j 0).sum /
    ((hi - lo : ℕ) : ℝ)

/-- A drop-take slice is the map of indexed reads over the index range. -/
lemma drop_take_eq_map_range' (l : List ℝ) (s n : ℕ) (h : s + n ≤ l.length) :
    (l.drop s).take n = (List.range' s n).map fun j => l.getD j 0 := by
  apply List.ext_getElem
  · simp only [List.length_take, List.length_drop, List.length_map,
      List.length_range']
    omega
  · intro i h1 h2
    simp only [List.length_take, List.length_drop] at h1
    simp only [List.getElem_take, List.getElem_drop, List.getElem_map,
      List.getElem_range', one_mul]
    rw [List.getD_eq_getElem _ _ (by omega)]

/-- mapM over Option succeeds pointwise. -/
lemma mapM_eq_some_map (f : ℕ → Option ℝ) (g : ℕ → ℝ) (l : List ℕ)
    (h : ∀ i ∈ l, f i = some (g i)) : l.mapM f = some (l.map g) := by
  induction l with
  | nil => rfl
  | cons a l ih =>
    rw [List.mapM_cons, h a (List.mem_cons_self a l),
      ih fun i hi => h i (List.mem_cons_of_mem a hi)]
    rfl

/-- For a nonnegative window and an in-range index, the window slice is
nonempty and its mean is the index-range mean of the claim. -/
lemma rolling_mean_at_eq (speeds : List ℝ) (window : ℤ) (hw : 0 ≤ window)
    (i : ℕ) (hi : i < speeds.length) :
    rolling_mean_at speeds window i =
      some (index_range_mean speeds (i - window.toNat / 2)
        (min speeds.length (i + window.toNat / 2 + 1))) := by
  have hdiv : window / 2 = ((window.toNat / 2 : ℕ) : ℤ) := by
    rw [Int.natCast_div, Int.toNat_of_nonneg hw]
    norm_num
  rw [rolling_mean_at]
  simp only [hdiv]
  have hstart : (max 0 ((i : ℤ) - ((window.toNat / 2 : ℕ) : ℤ))).toNat =
      i - window.toNat / 2 := by omega
  have hend : (min (speeds.length : ℤ) ((i : ℤ) + ((window.toNat / 2 : ℕ) : ℤ) + 1)).toNat =
      min speeds.length (i + window.toNat / 2 + 1) := by omega
  rw [hstart, hend]
  have hslice : (speeds.drop (i - window.toNat / 2)).take
        (min speeds.length (i + window.toNat / 2 + 1) - (i - window.toNat / 2)) =
      (List.range' (i - window.toNat / 2)
        (min speeds.length (i + window.toNat / 2 + 1) - (i - window.toNat / 2))).map
        fun j => speeds.getD j 0 :=
    drop_take_eq_map_range' speeds _ _ (by omega)
  rw [hslice]
  have hlen : ((List.range' (i - window.toNat / 2)
      (min speeds.length (i + window.toNat / 2 + 1) - (i - window.toNat / 2))).map
      fun j => speeds.getD j 0).length =
      min speeds.length (i + window.toNat / 2 + 1) - (i - window.toNat / 2) := by
    simp
  rw [if_neg (by rw [hlen]; omega)]
  rw [index_range_mean, hlen]

/-- C8 amended (the claim holds for every nonnegative window; a negative
window with a nonempty input instead raises ZeroDivisionError on an empty
slice): for a nonnegative window, an input shorter than the window is
returned unchanged, and otherwise the output has the length of the input
and its i-th element is the mean of the input over
[max(0, i - window//2), min(len, i + window//2 + 1)). -/
theorem rolling_mean_spec (speeds : List ℝ) (window : ℤ) (hw : 0 ≤ window) :
    ((speeds.length : ℤ) < window →
      calculate_rolling_mean_speeds speeds window = some speeds) ∧
    (window ≤ (speeds.length : ℤ) →
      ∃ out : List ℝ,
        calculate_rolling_mean_speeds speeds window = some out ∧
        out.length = speeds.length ∧
        ∀ i, i < speeds.length →
          out.getD i 0 = index_range_mean speeds (i - window.toNat / 2)
            (min speeds.length (i + window.toNat / 2 + 1))) := by
  constructor
  · intro hlt
    rw [calculate_rolling_mean_speeds, if_pos hlt]
  · intro hle
    rw [calculate_rolling_mean_speeds, if_neg (by omega)]
    refine ⟨_, mapM_eq_some_map _ _ _ fun i hi =>
      rolling_mean_at_eq speeds window hw i (List.mem_range.mp hi), by simp, ?_⟩
    intro i hilt
    rw [List.getD_eq_getElem _ _ (by simp [hilt])]
    simp only [List.getElem_map, List.getElem_range]

/-- C8 witness: a three-value list with window one. -/
theorem rolling_mean_spec_witness :
    ∃ out : List ℝ,
      calculate_rolling_mean_speeds [1, 2, 3] 1 = some out ∧
      out.length = ([1, 2, 3] : List ℝ).length ∧
      ∀ i, i < ([1, 2, 3] : List ℝ).length →
        out.getD i 0 = index_range_mean [1, 2, 3] (i - (1 : ℤ).toNat / 2)
          (min ([1, 2, 3] : List ℝ).length (i + (1 : ℤ).toNat / 2 + 1)) :=
  (rolling_mean_spec [1, 2, 3] 1 (by decide)).2 (by decide)

/-- C8 counterexample: a negative window on a nonempty input does not take
the too-short branch and the first window slice is empty, so the code
raises ZeroDivisionError (modelled as none) instead of returning a list of
the means. -/
theorem rolling_mean_negative_window_fails :
    calculate_rolling_mean_speeds [(1 : ℝ)] (-1) = none ∧
    ¬ ((([(1 : ℝ)].length : ℤ)) < -1) := by
  exact ⟨rfl, by decide⟩

/-- A successful association-list lookup returns a stored value. -/
lemma lookup_mem_values {l : List (String × String)} {k v : String}
    (h : l.lookup k = some v) : ∃ p ∈ l, p.2 = v := by
  induction l with
  | nil => simp [List.lookup] at h
  | cons a l ih =>
    rcases a with ⟨ka, va⟩
    rw [List.lookup_cons] at h
    rcases hk : (k == ka) with _ | _
    · rw [hk] at h
      obtain ⟨p, hp, hpv⟩ := ih h
      exact ⟨p, List.mem_cons_of_mem _ hp, hpv⟩
    · rw [hk] at h
      simp only [Option.some_inj] at h
      exact ⟨(ka, va), List.mem_cons_self _ _, h⟩

/-- Case analysis of the state-resolution match, conditional on the lookup
outcome: a mapped lowercased state returns its stored two-letter code; an
unmapped nonempty state is returned verbatim; an empty state yields the
UNKNOWN sentinel; and the result is never the empty string. -/
lemma geocode_match_cases (st : String) :
    ((match state_mapping.lookup (py_lower st) with
      | some code => code
      | none => if st ≠ "" then st else "UNKNOWN") ≠ "") ∧
    (∀ code, state_mapping.lookup (py_lower st) = some code →
      (match state_mapping.lookup (py_lower st) with
        | some code => code
        | none => if st ≠ "" then st else "UNKNOWN") = code ∧ code.length = 2) ∧
    (state_mapping.lookup (py_lower st) = none → st ≠ "" →
      (match state_mapping.lookup (py_lower st) with
        | some code => code
        | none => if st ≠ "" then st else "UNKNOWN") = st) ∧
    (st = "" →
      (match state_mapping.lookup (py_lower st) with
        | some code => code
        | none => if st ≠ "" then st else "UNKNOWN") = "UNKNOWN") := by
  rcases hl : state_mapping.lookup (py_lower st) with _ | code
  · refine ⟨?_, ?_, ?_, ?_⟩
    · by_cases hs : st = ""
      · show (if st ≠ "" then st else "UNKNOWN") ≠ ""
        rw [if_neg (by simp [hs])]
        decide
      · show (if st ≠ "" then st else "UNKNOWN") ≠ ""
        rw [if_pos hs]
        exact hs
    · intro code hcode
      exact Option.noConfusion hcode
    · intro _ hs
      show (if st ≠ "" then st else "UNKNOWN") = st
      rw [if_pos hs]
    · intro hs
      show (if st ≠ "" then st else "UNKNOWN") = "UNKNOWN"
      rw [if_neg (by simp [hs])]
  · have hlen : code.length = 2 := by
      obtain ⟨p, hp, hpv⟩ := lookup_mem_values hl
      have hall : ∀ p ∈ state_mapping, p.2.length = 2 := by decide
      rw [← hpv]
      exact hall p hp
    refine ⟨?_, ?_, ?_, ?_⟩
    · show code ≠ ""
      intro hc
      rw [hc] at hlen
      exact absurd hlen (by decide)
    · intro code' hcode'
      have heq : code = code' := Option.some_inj.mp hcode'
      exact ⟨heq, heq ▸ hlen⟩
    · intro hnone
      exact absurd hnone (by simp)
    · intro hs
      exfalso
      rw [hs] at hl
      have hemp : state_mapping.lookup (py_lower "") = none := by decide
      rw [hemp] at hl
      exact Option.noConfusion hl

/-- C9 amended (the normalization part of the claim fails: a state outside
the eight-entry table is returned verbatim, not as a two-letter code and
not as UNKNOWN): reverse_geocode_state never returns the empty string; on
total failure it returns exactly UNKNOWN; and on a decoded response, with
the resolved state being the state field when nonempty and the upper-cased
country code otherwise, a mapped lowercased resolved state returns its
stored two-letter code, an unmapped nonempty resolved state is returned
verbatim, and an empty resolved state returns exactly UNKNOWN. -/
theorem reverse_geocode_state_contract (resp : Option Address) :
    reverse_geocode_state resp ≠ "" ∧
    (resp = none → reverse_geocode_state resp = "UNKNOWN") ∧
    ∀ address, resp = some address →
      (∀ code,
        state_mapping.lookup (py_lower (if address.state.getD "" ≠ "" then
          address.state.getD "" else py_upper (address.country_code.getD ""))) =
            some code →
        reverse_geocode_state resp = code ∧ code.length = 2) ∧
      (state_mapping.lookup (py_lower (if address.state.getD "" ≠ "" then
          address.state.getD "" else py_upper (address.country_code.getD ""))) =
            none →
        (if address.state.getD "" ≠ "" then address.state.getD ""
          else py_upper (address.country_code.getD "")) ≠ "" →
        reverse_geocode_state resp =
          (if address.state.getD "" ≠ "" then address.state.getD ""
            else py_upper (address.country_code.getD ""))) ∧
      ((if address.state.getD "" ≠ "" then address.state.getD ""
          else py_upper (address.country_code.getD "")) = "" →
        reverse_geocode_state resp = "UNKNOWN") := by
  cases resp with
  | none =>
    refine ⟨by decide, fun _ => rfl, ?_⟩
    intro address h
    exact Option.noConfusion h
  | some address =>
    have hc := geocode_match_cases
      (if address.state.getD "" ≠ "" then address.state.getD ""
        else py_upper (address.country_code.getD ""))
    refine ⟨hc.1, fun h => Option.noConfusion h, ?_⟩
    intro address' h
    have haddr : address = address' := Option.some_inj.mp h
    subst haddr
    exact ⟨hc.2.1, hc.2.2.1, hc.2.2.2⟩

/-- C9 witness: the failure case returns exactly UNKNOWN, and a mapped
state name returns its stored two-letter code. -/
theorem reverse_geocode_state_contract_witness :
    reverse_geocode_state none = "UNKNOWN" ∧
    reverse_geocode_state (some ⟨some "California", some "us"⟩) = "CA" :=
  ⟨(reverse_geocode_state_contract none).2.1 rfl,
    (((reverse_geocode_state_contract (some ⟨some "California", some "us"⟩)).2.2
      ⟨some "California", some "us"⟩ rfl).1 "CA" (by decide)).1⟩

/-- C9 counterexample: an address whose state is Ohio, absent from the
mapping, is returned verbatim: neither a two-letter code nor UNKNOWN,
although no mapping was found. -/
theorem reverse_geocode_state_unnormalized :
    reverse_geocode_state (some ⟨some "Ohio", some "us"⟩) = "Ohio" ∧
    ("Ohio" : String).length ≠ 2 ∧ ("Ohio" : String) ≠ "UNKNOWN" := by
  refine ⟨?_, by decide, by decide⟩
  decide

/-- Closed form of the haversine distance between two equator points at
longitudes 0 and lon degrees, for lon between 0 and 180: the sqrt and
arcsin cancel against the sine. -/
lemma haversine_equator (lon : ℚ) (h0 : 0 ≤ (lon : ℝ)) (h1 : (lon : ℝ) ≤ 180) :
    haversine_distance 0 0 0 lon = 2 * 6371 * ((lon : ℝ) * Real.pi / 360) := by
  have hpi := Real.pi_pos
  have hx0 : 0 ≤ (lon : ℝ) * Real.pi / 360 :=
    div_nonneg (mul_nonneg h0 hpi.le) (by norm_num)
  have hx2 : (lon : ℝ) * Real.pi / 360 ≤ Real.pi / 2 := by
    nlinarith
  have hr0 : radians 0 = 0 := by
    simp [radians]
  have harg : (radians lon - radians 0) / 2 = (lon : ℝ) * Real.pi / 360 := by
    rw [hr0, sub_zero, radians]
    ring
  show 2 * 6371 * Real.arcsin (Real.sqrt
      (Real.sin ((radians 0 - radians 0) / 2) ^ 2 +
        Real.cos (radians 0) * Real.cos (radians 0) *
          Real.sin ((radians lon - radians 0) / 2) ^ 2)) =
    2 * 6371 * ((lon : ℝ) * Real.pi / 360)
  rw [harg, hr0]
  norm_num
  rw [Real.sqrt_sq (Real.sin_nonneg_of_nonneg_of_le_pi hx0 (by linarith)),
    Real.arcsin_sin (by linarith) hx2]

/-- C6 amended (the last-point part of the claim needs the derived duration
to be at least one minute; for closer endpoints the polyline collapses to
the start point): on the fallback path duration_hours is exactly the
haversine distance divided by 80, the first interpolated point is exactly
the start, and the last interpolated point is exactly the end whenever the
derived duration_minutes is at least 1. -/
theorem fallback_duration_and_endpoints (a b c d : ℚ) :
    (RoutingOsrmApi.fallback_linear_route a b c d).duration_hours =
      haversine_distance a b c d / 80 ∧
    (RoutingOsrmApi.fallback_linear_route a b c d).route_points.head? =
      some (a, b) ∧
    (1 ≤ int_of_real (haversine_distance a b c d / 80 * 60) →
      (RoutingOsrmApi.fallback_linear_route a b c d).route_points.getLast? =
        some (c, d)) := by
  refine ⟨rfl, ?_, ?_⟩
  · exact interpolate_route_head a b c d _ (fallback_duration_minutes_nonneg a b c d)
  · intro h1
    exact interpolate_route_last a b c d _ h1

/-- C6 witness: equator endpoints ninety degrees apart, far enough that the
derived duration is at least one minute. -/
theorem fallback_duration_and_endpoints_witness :
    (RoutingOsrmApi.fallback_linear_route 0 0 0 90).duration_hours =
      haversine_distance 0 0 0 90 / 80 ∧
    (RoutingOsrmApi.fallback_linear_route 0 0 0 90).route_points.head? =
      some (0, 0) ∧
    (RoutingOsrmApi.fallback_linear_route 0 0 0 90).route_points.getLast? =
      some (0, 90) := by
  have hd := haversine_equator 90 (by norm_num) (by norm_num)
  have hge : (1 : ℝ) ≤ haversine_distance 0 0 0 90 / 80 * 60 := by
    rw [hd]
    push_cast
    nlinarith [Real.pi_gt_three]
  have hnn : (0 : ℝ) ≤ haversine_distance 0 0 0 90 / 80 * 60 := by linarith
  have h1 : 1 ≤ int_of_real (haversine_distance 0 0 0 90 / 80 * 60) := by
    rw [int_of_real_of_nonneg hnn]
    exact Int.le_floor.mpr (by exact_mod_cast hge)
  have ht := fallback_duration_and_endpoints 0 0 0 90
  exact ⟨ht.1, ht.2.1, ht.2.2 h1⟩

/-- C6 counterexample: equator endpoints a thousandth of a degree apart.
The haversine distance is far below the 4/3 km that one minute at 80 km/h
covers, the derived duration truncates to zero minutes, and the fallback
polyline is the single start point: its last point is not the end point. -/
theorem fallback_close_endpoints_last_ne :
    (RoutingOsrmApi.fallback_linear_route 0 0 0 (1 / 1000)).route_points =
      [((0 : ℚ), (0 : ℚ))] ∧
    ((0 : ℚ), (0 : ℚ)) ≠ ((0 : ℚ), ((1 : ℚ) / 1000)) := by
  constructor
  · have hd := haversine_equator (1 / 1000) (by positivity) (by norm_num)
    have hx : haversine_distance 0 0 0 (1 / 1000) / 80 * 60 < 1 := by
      rw [hd]
      push_cast
      nlinarith [Real.pi_le_four, Real.pi_pos]
    have hnn : (0 : ℝ) ≤ haversine_distance 0 0 0 (1 / 1000) / 80 * 60 := by
      have := haversine_distance_nonneg 0 0 0 (1 / 1000)
      positivity
    have hzero : int_of_real (haversine_distance 0 0 0 (1 / 1000) / 80 * 60) = 0 := by
      rw [int_of_real_of_nonneg hnn]
      exact Int.floor_eq_zero_iff.mpr ⟨hnn, hx⟩
    show interpolate_route 0 0 0 (1 / 1000)
        (int_of_real (haversine_distance 0 0 0 (1 / 1000) / 80 * 60)) =
      [((0 : ℚ), (0 : ℚ))]
    rw [hzero]
    have h01 : ((0 : ℤ) + 1).toNat = 1 := rfl
    have hr : List.range 1 = [0] := rfl
    rw [interpolate_route, h01, hr]
    norm_num
  · norm_num [Prod.ext_iff]
